import Mathlib

/-!
Verification of the hash-infrastructure module of the merkletree repository.

The module defines three capabilities:
* `Hashable<H>`: a value feeds itself into a streaming hasher; the provided
  default `hash_slice` feeds each element of a slice, in order, into the
  same hasher (src/merkle/src/hash.rs lines 86-93 and src/src/hash.rs
  lines 68-74, identical loops).
* `Algorithm<T> : Hasher`: a streaming hasher that can report the digest of
  the stream written so far (`fn hash(&self) -> T`, a shared-borrow read)
  and be reset to the initial state (`fn reset(&mut self)`).  The digest
  type `T` is bounded by `AsRef<[u8]> + Sized + Ord + Clone` in the merkle
  copy and `AsBytes + Sized + Ord + Clone` in the src copy.
* `AsBytes`: `fn as_bytes(&self) -> &[u8]`, a borrowed byte view of a digest.

A hasher is embedded as a state type `σ`, and `hash` of a `Hashable` type
`α` as a state transformer `α → σ → σ`.  The concrete streaming hasher used
by the doc example (std's `DefaultHasher`, i.e. SipHash-1-3 with a zero
key) is modelled bit-exactly over `Nat` with explicit wrapping at 2^64.
-/

/-- The default `hash_slice` of `Hashable` in src/merkle/src/hash.rs
(lines 86-93): `for piece in data { piece.hash(state); }` — each element of
the slice is fed, in slice order, into the same hasher state. -/
def hash_slice (hash : α → σ → σ) : List α → σ → σ
  | [], state => state
  | piece :: rest, state => hash_slice hash rest (hash piece state)

/-- The default `hash_slice` of `Hashable` in src/src/hash.rs (lines 68-74).
The loop body is identical to the copy in src/merkle/src/hash.rs. -/
def hash_slice_src (hash : α → σ → σ) : List α → σ → σ
  | [], state => state
  | piece :: rest, state => hash_slice_src hash rest (hash piece state)

/-- Manually hashing each element of a sequence in order into the same
accumulator, written as a left fold of the per-element `hash` call.  This is
the spec's description of the sequence-hash operation, used as the reference
for the slice-hash equivalence property. -/
def hashEach (hash : α → σ → σ) (data : List α) (state : σ) : σ :=
  data.foldl (fun st piece => hash piece st) state

/-! ### SipHash-1-3 (std `DefaultHasher`), modelled over `Nat`

Modelled from the spec: the "specific deterministic non-cryptographic
streaming hash with a fixed seed" pinned by the doc example in
src/merkle/src/hash.rs (lines 47-63) is std's `DefaultHasher`, SipHash-1-3
with both key words zero.  Its implementation is not part of this
repository, so it is reproduced here from the published algorithm; the
golden value in the doc example validates the modelling. -/

/-- Truncate to a 64-bit word. -/
def wrap64 (x : Nat) : Nat := x % 2 ^ 64

/-- Rotate a 64-bit word left by `r` bits. -/
def rotl64 (x r : Nat) : Nat := wrap64 (x <<< r) ||| (x >>> (64 - r))

/-- The four 64-bit words of the SipHash internal state. -/
structure SipState where
  v0 : Nat
  v1 : Nat
  v2 : Nat
  v3 : Nat
deriving DecidableEq

/-- One SipRound of the SipHash permutation. -/
def sipRound (s : SipState) : SipState :=
  let a0 := wrap64 (s.v0 + s.v1)
  let b1 := rotl64 s.v1 13 ^^^ a0
  let a1 := rotl64 a0 32
  let c0 := wrap64 (s.v2 + s.v3)
  let d1 := rotl64 s.v3 16 ^^^ c0
  let a2 := wrap64 (a1 + d1)
  let d2 := rotl64 d1 21 ^^^ a2
  let c1 := wrap64 (c0 + b1)
  let b2 := rotl64 b1 17 ^^^ c1
  let c2 := rotl64 c1 32
  ⟨a2, b2, c2, d2⟩

/-- Initial SipHash state for key words `k0`, `k1`. -/
def sipInit (k0 k1 : Nat) : SipState :=
  ⟨0x736f6d6570736575 ^^^ k0, 0x646f72616e646f6d ^^^ k1,
   0x6c7967656e657261 ^^^ k0, 0x7465646279746573 ^^^ k1⟩

/-- Interpret a list of bytes as a little-endian natural number. -/
def le64 (bytes : List Nat) : Nat :=
  bytes.foldr (fun b acc => b + 256 * acc) 0

/-- Absorb one 64-bit message word with c = 1 compression round
(SipHash-1-3). -/
def sipCompress (m : Nat) (s : SipState) : SipState :=
  let s1 := sipRound ⟨s.v0, s.v1, s.v2, s.v3 ^^^ m⟩
  ⟨s1.v0 ^^^ m, s1.v1, s1.v2, s1.v3⟩

/-- Absorb all full 8-byte little-endian blocks of the message; return the
state together with the remaining (fewer than 8) bytes. -/
def sipBody : List Nat → SipState → SipState × List Nat
  | b0 :: b1 :: b2 :: b3 :: b4 :: b5 :: b6 :: b7 :: rest, s =>
      sipBody rest (sipCompress (le64 [b0, b1, b2, b3, b4, b5, b6, b7]) s)
  | rest, s => (s, rest)

/-- Finalization: absorb the last block (remaining bytes, zero padding, the
total length modulo 256 in the top byte), then xor 0xff into v2 and apply
d = 3 finalization rounds. -/
def sipFinish (totalLen : Nat) (rem : List Nat) (s : SipState) : Nat :=
  let last := le64 (rem ++ List.replicate (7 - rem.length) 0 ++ [totalLen % 256])
  let s1 := sipCompress last s
  let s2 := sipRound (sipRound (sipRound ⟨s1.v0, s1.v1, s1.v2 ^^^ 0xff, s1.v3⟩))
  s2.v0 ^^^ s2.v1 ^^^ s2.v2 ^^^ s2.v3

/-- SipHash-1-3 of a byte sequence under key words `k0`, `k1`. -/
def siphash13 (k0 k1 : Nat) (data : List Nat) : Nat :=
  let body := sipBody data (sipInit k0 k1)
  sipFinish data.length body.2 body.1

/-- The byte stream written so far into a streaming hasher.  The digest of
std's `DefaultHasher` is a function of the ordered byte stream fed to it,
so the stream itself is a faithful state for the modelled instance. -/
abbrev HasherState := List Nat

/-- The state of a freshly constructed hasher: nothing written yet. -/
def freshHasher : HasherState := []

/-- `Hasher::finish` of the modelled `DefaultHasher`: SipHash-1-3 with the
fixed zero key over the bytes written so far. -/
def defaultHasherFinish (state : HasherState) : Nat := siphash13 0 0 state

/-! ### The `Person` doc example (src/merkle/src/hash.rs lines 40-62) -/

/-- Little-endian bytes of a `u32` value. -/
def u32le (x : Nat) : List Nat :=
  [x % 256, x / 256 % 256, x / 256 ^ 2 % 256, x / 256 ^ 3 % 256]

/-- Little-endian bytes of a `u64` value. -/
def u64le (x : Nat) : List Nat :=
  [x % 256, x / 256 % 256, x / 256 ^ 2 % 256, x / 256 ^ 3 % 256,
   x / 256 ^ 4 % 256, x / 256 ^ 5 % 256, x / 256 ^ 6 % 256, x / 256 ^ 7 % 256]

/-- The composite type of the doc example: `id: u32`, `name: String` (held
as its UTF-8 bytes), `phone: u64`. -/
structure Person where
  id : Nat
  name : List Nat
  phone : Nat

/-- `Hashable::hash` for `Person` as written in the doc example: feed `id`,
then `name`, then `phone` into the hasher, in declaration order.  Modelled
from the spec: the primitive `Hashable` impls for `u32`, `String` and `u64`
are not under src/; following the spec they write the value's raw content —
the little-endian bytes of the integer fields and the raw UTF-8 bytes of the
string — into the accumulator. -/
def Person.hash (p : Person) (state : HasherState) : HasherState :=
  ((state ++ u32le p.id) ++ p.name) ++ u64le p.phone

/-- Structural (derived) equality on `Person`: fields compared pairwise. -/
def Person.beq (p q : Person) : Bool :=
  p.id == q.id && p.name == q.name && p.phone == q.phone

/-- The UTF-8 bytes of the string "blah". -/
def blahBytes : List Nat := [0x62, 0x6c, 0x61, 0x68]

/-! ### The `Algorithm` capability (trait, src/merkle/src/hash.rs 96-109)

Modelled from the spec: `Algorithm` is only a trait signature under src/,
with no implementation; the modelled instance is the `DefaultHasher`-backed
one the doc example uses.  `fn hash(&self) -> T` takes a shared borrow, so
it is modelled as returning the digest together with the (unchanged) state
it leaves behind; `fn reset(&mut self)` returns the state to the initial
configuration of a freshly constructed hasher. -/

/-- `Algorithm::hash` of the modelled instance: report the digest of the
stream written so far; the `&self` receiver leaves the state as it was. -/
def algorithmHash (s : HasherState) : Nat × HasherState :=
  (defaultHasherFinish s, s)

/-- `Algorithm::reset` of the modelled instance: clear the internal state
back to the initial, pre-any-write configuration. -/
def algorithmReset (_ : HasherState) : HasherState := freshHasher

/-! ### The digest type and its trait bounds

Modelled from the spec: the digest type `T` of an `Algorithm` is only a
bounded type parameter under src/ (`Ord + Clone` plus a byte view); the
modelled concrete digest is the 64-bit value produced by the modelled
`DefaultHasher`, with the numeric total order, trivial cloning, and its
little-endian bytes as the byte view. -/

/-- A digest value: the 64-bit output of the modelled algorithm. -/
structure Digest where
  val : Nat

/-- The `Ord` comparison on `Digest`: numeric order on the value. -/
def Digest.le (a b : Digest) : Bool := a.val ≤ b.val

/-- `Clone::clone` on `Digest`: duplicate the value. -/
def Digest.clone (d : Digest) : Digest := ⟨d.val⟩

/-- `AsBytes::as_bytes` (src/src/hash.rs lines 97-100): a borrowed byte
view of the digest.  The `&self` receiver is modelled by returning the byte
view together with the (unchanged) value it leaves behind. -/
def Digest.as_bytes (d : Digest) : List Nat × Digest := (u64le d.val, d)

/-! ### The two copies of the `Algorithm` trait bounds (for C8) -/

/-- The requirements src/merkle/src/hash.rs places on the digest type
parameter of `Algorithm` (lines 100-103): a byte view (`AsRef<[u8]>`), a
total order (`Ord`) and cloning (`Clone`). -/
structure AlgorithmReqMerkle (T : Type) where
  byteView : T → List Nat
  le : T → T → Bool
  clone : T → T

/-- The requirements src/src/hash.rs places on the digest type parameter of
`Algorithm` (lines 81-82): a byte view (`AsBytes`), a total order (`Ord`)
and cloning (`Clone`). -/
structure AlgorithmReqSrc (T : Type) where
  byteView : T → List Nat
  le : T → T → Bool
  clone : T → T

/-- Read the merkle-copy requirements as the src-copy requirements:
`AsRef<[u8]>::as_ref` supplies `AsBytes::as_bytes`. -/
def reqToSrc (A : AlgorithmReqMerkle T) : AlgorithmReqSrc T :=
  ⟨A.byteView, A.le, A.clone⟩

/-- Read the src-copy requirements as the merkle-copy requirements:
`AsBytes::as_bytes` supplies `AsRef<[u8]>::as_ref`. -/
def reqToMerkle (A : AlgorithmReqSrc T) : AlgorithmReqMerkle T :=
  ⟨A.byteView, A.le, A.clone⟩

/-! ### Theorems -/

/-- C1: for every element type, every slice and every hasher state, the
default `hash_slice` produces exactly the same final hasher state as calling
`hash` on each element of the slice, in slice order, on that same state. -/
theorem hash_slice_eq_hashEach (hash : α → σ → σ) (data : List α) (state : σ) :
    hash_slice hash data state = hashEach hash data state := by
  induction data generalizing state with
  | nil => rfl
  | cons piece rest ih => simpa [hash_slice, hashEach] using ih (hash piece state)

/-- C2: hashing the composite value with fields id = 1, name = "blah",
phone = 2 field-by-field in declaration order into a fresh DefaultHasher
(SipHash-1-3, zero key) and finalizing yields the documented golden digest
7101638158313343130. -/
theorem person_golden_digest :
    defaultHasherFinish (Person.hash ⟨1, blahBytes, 2⟩ freshHasher) =
      7101638158313343130 := by
  decide

/-- C3: hash/equality coherence for the doc example type — if two `Person`
values are equal under the domain equality, feeding them into the same
hasher state writes identical byte streams, hence identical final states
and digests. -/
theorem person_hash_eq_coherent (p q : Person) (h : Person.beq p q = true)
    (state : HasherState) : Person.hash p state = Person.hash q state := by
  obtain ⟨i1, n1, f1⟩ := p
  obtain ⟨i2, n2, f2⟩ := q
  simp only [Person.beq, Bool.and_eq_true, beq_iff_eq] at h
  obtain ⟨⟨h1, h2⟩, h3⟩ := h
  simp [Person.hash, h1, h2, h3]

/-- Witness for C3 at a concrete pair of equal persons. -/
theorem person_hash_eq_coherent_witness :
    Person.beq ⟨1, blahBytes, 2⟩ ⟨1, blahBytes, 2⟩ = true ∧
    Person.hash ⟨1, blahBytes, 2⟩ [] = Person.hash ⟨1, blahBytes, 2⟩ [] :=
  ⟨by decide, person_hash_eq_coherent ⟨1, blahBytes, 2⟩ ⟨1, blahBytes, 2⟩ (by decide) []⟩

/-- C4: for every hasher state, `reset` returns the state of a freshly
constructed instance — so all further behavior, in particular the next
`hash()` digest, is indistinguishable from a fresh instance with no
writes. -/
theorem reset_restores_fresh_state (s : HasherState) :
    algorithmReset s = freshHasher ∧
    (algorithmHash (algorithmReset s)).1 = (algorithmHash freshHasher).1 :=
  ⟨rfl, rfl⟩

/-- C5: `Algorithm::hash` leaves the accumulator state unchanged, and two
consecutive calls with no intervening writes return equal digests. -/
theorem hash_read_idempotent (s : HasherState) :
    (algorithmHash s).2 = s ∧
    (algorithmHash ((algorithmHash s).2)).1 = (algorithmHash s).1 :=
  ⟨rfl, rfl⟩

/-- C6: the comparison on the digest type is transitive and total, and
every digest is cloneable (the clone equals the original). -/
theorem digest_total_order_clone (d1 d2 d3 : Digest) :
    (Digest.le d1 d2 = true → Digest.le d2 d3 = true → Digest.le d1 d3 = true) ∧
    (Digest.le d1 d2 || Digest.le d2 d1) = true ∧
    Digest.clone d1 = d1 := by
  refine ⟨fun h12 h23 => ?_, ?_, rfl⟩
  · simp only [Digest.le, decide_eq_true_eq] at *
    omega
  · simp only [Digest.le, Bool.or_eq_true, decide_eq_true_eq]
    omega

/-- Witness for C6 at concrete digests 1 ≤ 2 ≤ 3, discharging the
transitivity implication there. -/
theorem digest_total_order_clone_witness :
    Digest.le ⟨1⟩ ⟨3⟩ = true ∧ (Digest.le ⟨1⟩ ⟨2⟩ || Digest.le ⟨2⟩ ⟨1⟩) = true ∧
    Digest.clone ⟨1⟩ = ⟨1⟩ :=
  ⟨(digest_total_order_clone ⟨1⟩ ⟨2⟩ ⟨3⟩).1 (by decide) (by decide),
   (digest_total_order_clone ⟨1⟩ ⟨2⟩ ⟨3⟩).2⟩

/-- C7: the byte view of a digest is stable — `as_bytes` leaves the value
unchanged, and a second call on that same value yields byte-identical
output. -/
theorem as_bytes_stable (d : Digest) :
    (Digest.as_bytes d).2 = d ∧
    (Digest.as_bytes ((Digest.as_bytes d).2)).1 = (Digest.as_bytes d).1 :=
  ⟨rfl, rfl⟩

/-- C8: the two near-duplicate copies of the module define the same
contract — the two default `hash_slice` implementations agree on every
element type, slice and hasher state, and the requirement sets the two
`Algorithm` traits impose on the digest type (byte view, total order,
cloning) are in bijection. -/
theorem duplicate_modules_equivalent :
    (∀ (α σ : Type) (hash : α → σ → σ) (data : List α) (state : σ),
        hash_slice hash data state = hash_slice_src hash data state) ∧
    (∀ (T : Type) (A : AlgorithmReqMerkle T), reqToMerkle (reqToSrc A) = A) ∧
    (∀ (T : Type) (A : AlgorithmReqSrc T), reqToSrc (reqToMerkle A) = A) := by
  refine ⟨fun α σ hash data => ?_, fun T A => rfl, fun T A => rfl⟩
  induction data with
  | nil => intro state; rfl
  | cons piece rest ih =>
      intro state
      simpa [hash_slice, hash_slice_src] using ih (hash piece state)

/-- C9: the default `hash_slice` on an empty slice leaves the hasher state
completely unchanged — and since this holds for every per-element `hash`
function, no element hash call can have been made. -/
theorem hash_slice_nil_frame (hash : α → σ → σ) (state : σ) :
    hash_slice hash [] state = state := rfl

/-- C10: the default `hash_slice` is a homomorphism with respect to slice
concatenation — hashing the concatenation of two slices equals hashing the
first and then the second on the resulting state. -/
theorem hash_slice_append (hash : α → σ → σ) (a b : List α) (state : σ) :
    hash_slice hash (a ++ b) state = hash_slice hash b (hash_slice hash a state) := by
  induction a generalizing state with
  | nil => rfl
  | cons piece rest ih => simpa [hash_slice] using ih (hash piece state)
